import Mathlib

/-!
Shallow embedding of the servicer repository's Service Descriptor & Unit
Control Plane core, together with theorems settling the frozen claims.

Sources embedded:
- `src/utils/systemd.rs`: `encode_as_dbus_object_path`, `get_unit_path`,
  `get_active_state`, `get_unit_file_state`, `get_main_pid`.
- `src/main.rs` (older `stabled` variant of the tool): the unit-name
  normalization inline in `main`, `get_load_state`.
- `src/handlers/handle_create_service.rs`: `get_interpreter`,
  `create_service_file`, and the creation pipeline around them.
- `src/utils/process_status.rs`: `get_memory_usage` (pure part).

I/O boundaries (the D-Bus connection, `which` lookups, the filesystem and
environment variables) are passed in as explicit function or value
parameters; Rust panics and `expect` calls are modelled as `Except.error`.
-/

namespace Servicer

/-- One lowercase hexadecimal digit, as Rust's `{:x}` formatting emits:
`0`..`9` for values below ten, `a`..`f` for ten to fifteen. -/
def hexDigitChar (n : Nat) : Char :=
  if n < 10 then Char.ofNat (48 + n) else Char.ofNat (87 + n)

/-- Fuel-driven little helper producing the lowercase hex digits of `n`,
most significant first (the fuel only bounds recursion depth; `toLowerHex`
always supplies enough). -/
def toLowerHexAux : Nat → Nat → List Char
  | 0, _ => []
  | fuel + 1, n =>
    if n < 16 then [hexDigitChar n]
    else toLowerHexAux fuel (n / 16) ++ [hexDigitChar (n % 16)]

/-- Lowercase hexadecimal rendering of `n` with no padding, the semantics
of Rust's `format!("{:x}", n)`. -/
def toLowerHex (n : Nat) : List Char := toLowerHexAux (n + 1) n

/-- The per-character escaping step of `encode_as_dbus_object_path`
(src/utils/systemd.rs lines 158-164): ASCII alphanumerics, `/` and `_`
pass through; any other character becomes `_` followed by the lowercase
hex of its code point (`format!("_{:x}", c as u32)`). -/
def escChar (c : Char) : List Char :=
  if c.isAlphanum || c = '/' || c = '_' then [c]
  else '_' :: toLowerHex c.toNat

/-- `input_string.chars().map(escape).collect::<String>()` at the level of
character lists: concatenate the escape of each character in order. -/
def encodeChars : List Char → List Char
  | [] => []
  | c :: cs => escChar c ++ encodeChars cs

/-- `encode_as_dbus_object_path` from src/utils/systemd.rs lines 155-166
(the identical copy in src/main.rs lines 318-329 is the same function). -/
def encode_as_dbus_object_path (input_string : String) : String :=
  String.mk (encodeChars input_string.data)

/-- `get_unit_path` from src/utils/systemd.rs lines 174-179. -/
def get_unit_path (full_service_name : String) : String :=
  "/org/freedesktop/systemd1/unit/" ++ encode_as_dbus_object_path full_service_name

/-- Value of one lowercase hexadecimal digit character; `none` for
anything that is not `0`..`9` or `a`..`f`. Spec-side decoder used to state
that the escaper emits genuine lowercase hex. -/
def hexDigitVal (c : Char) : Option Nat :=
  if '0' ≤ c ∧ c ≤ '9' then some (c.toNat - 48)
  else if 'a' ≤ c ∧ c ≤ 'f' then some (c.toNat - 87)
  else none

/-- Accumulating lowercase-hex string decoder. -/
def hexValAux : Nat → List Char → Option Nat
  | acc, [] => some acc
  | acc, c :: cs =>
    match hexDigitVal c with
    | some d => hexValAux (16 * acc + d) cs
    | none => none

/-- Decode a nonempty list of lowercase hex digit characters to the number
it denotes; `none` on the empty list or any non-hex-digit character. -/
def hexValChars (l : List Char) : Option Nat :=
  if l = [] then none else hexValAux 0 l

-- ## Basic lemmas about the hex rendering

theorem hexDigitChar_isAlphanum {n : Nat} (h : n < 16) :
    (hexDigitChar n).isAlphanum = true := by
  interval_cases n <;> decide

theorem hexDigitVal_hexDigitChar {n : Nat} (h : n < 16) :
    hexDigitVal (hexDigitChar n) = some n := by
  interval_cases n <;> decide

theorem toLowerHexAux_isAlphanum :
    ∀ fuel n c, c ∈ toLowerHexAux fuel n → c.isAlphanum = true := by
  intro fuel
  induction fuel with
  | zero => intro n c hc; simp [toLowerHexAux] at hc
  | succ k ih =>
    intro n c hc
    by_cases h : n < 16
    · simp [toLowerHexAux, h] at hc
      subst hc
      exact hexDigitChar_isAlphanum h
    · simp [toLowerHexAux, h] at hc
      rcases hc with hc | hc
      · exact ih _ _ hc
      · subst hc
        exact hexDigitChar_isAlphanum (Nat.mod_lt _ (by norm_num))

theorem toLowerHex_isAlphanum {n : Nat} {c : Char} (hc : c ∈ toLowerHex n) :
    c.isAlphanum = true :=
  toLowerHexAux_isAlphanum _ _ _ hc

theorem toLowerHexAux_succ (fuel n : Nat) :
    toLowerHexAux (fuel + 1) n =
      if n < 16 then [hexDigitChar n]
      else toLowerHexAux fuel (n / 16) ++ [hexDigitChar (n % 16)] := rfl

theorem hexValAux_append (l : List Char) (c : Char) :
    ∀ acc, hexValAux acc (l ++ [c]) =
      match hexValAux acc l with
      | some v =>
        (match hexDigitVal c with
         | some d => some (16 * v + d)
         | none => none)
      | none => none := by
  induction l with
  | nil =>
    intro acc
    simp [hexValAux]
  | cons a as ih =>
    intro acc
    simp only [List.cons_append, hexValAux]
    cases hexDigitVal a with
    | some d => exact ih _
    | none => rfl

theorem toLowerHexAux_ne_nil (fuel n : Nat) :
    toLowerHexAux (fuel + 1) n ≠ [] := by
  by_cases h : n < 16 <;> simp [toLowerHexAux, h]

theorem hexValAux_toLowerHexAux :
    ∀ fuel n acc, n < 16 ^ fuel →
      hexValAux acc (toLowerHexAux fuel n) =
        some (acc * 16 ^ (toLowerHexAux fuel n).length + n) := by
  intro fuel
  induction fuel with
  | zero =>
    intro n acc h
    interval_cases n
    simp [toLowerHexAux, hexValAux]
  | succ k ih =>
    intro n acc h
    by_cases hn : n < 16
    · simp [toLowerHexAux, hn, hexValAux, hexDigitVal_hexDigitChar hn]
      ring
    · have hquot : n / 16 < 16 ^ k := by
        rw [Nat.div_lt_iff_lt_mul (by norm_num)]
        calc n < 16 ^ (k + 1) := h
        _ = 16 ^ k * 16 := by ring
      rw [toLowerHexAux_succ, if_neg hn]
      rw [hexValAux_append, ih _ acc hquot]
      simp [hexDigitVal_hexDigitChar (Nat.mod_lt n (by norm_num : 0 < 16))]
      rw [pow_succ, ← mul_assoc]
      generalize acc * 16 ^ (toLowerHexAux k (n / 16)).length = P
      omega

theorem lt_sixteen_pow_succ (n : Nat) : n < 16 ^ (n + 1) := by
  calc n < 2 ^ n := Nat.lt_two_pow n
  _ ≤ 16 ^ n := Nat.pow_le_pow_left (by norm_num) n
  _ ≤ 16 ^ (n + 1) := Nat.pow_le_pow_right (by norm_num) (Nat.le_succ n)

/-- The escaper's hex rendering decodes back to the original code point:
it really is the number's lowercase hexadecimal representation. -/
theorem hexValChars_toLowerHex (n : Nat) :
    hexValChars (toLowerHex n) = some n := by
  have hne := toLowerHexAux_ne_nil n n
  have hval := hexValAux_toLowerHexAux (n + 1) n 0 (lt_sixteen_pow_succ n)
  simp only [Nat.zero_mul, Nat.zero_add] at hval
  unfold toLowerHex hexValChars
  rw [if_neg hne]
  exact hval

/-- The hex rendering has no padding: its leading digit is never `'0'`
unless the value itself is zero. -/
theorem toLowerHexAux_head_ne_zero :
    ∀ fuel n, 0 < n → n < 16 ^ fuel →
      (toLowerHexAux fuel n).head? ≠ some '0' := by
  intro fuel
  induction fuel with
  | zero =>
    intro n hpos h
    simp at h
    omega
  | succ k ih =>
    intro n hpos h
    by_cases hn : n < 16
    · rw [toLowerHexAux_succ, if_pos hn]
      simp only [List.head?_cons]
      intro hcontra
      have h0 : hexDigitChar n = '0' := by injection hcontra
      revert h0
      interval_cases n <;> decide
    · have hquot : n / 16 < 16 ^ k := by
        rw [Nat.div_lt_iff_lt_mul (by norm_num)]
        calc n < 16 ^ (k + 1) := h
        _ = 16 ^ k * 16 := by ring
      have hqpos : 0 < n / 16 := Nat.div_pos (Nat.le_of_not_lt hn) (by norm_num)
      have hk : 1 ≤ k := by
        by_contra hk0
        have : k = 0 := by omega
        subst this
        simp at hquot
        omega
      obtain ⟨k', rfl⟩ : ∃ k', k = k' + 1 := ⟨k - 1, by omega⟩
      rw [toLowerHexAux_succ, if_neg hn]
      have hhd := ih (n / 16) hqpos hquot
      cases hl : toLowerHexAux (k' + 1) (n / 16) with
      | nil => exact absurd hl (toLowerHexAux_ne_nil k' (n / 16))
      | cons a as =>
        rw [hl] at hhd
        simp only [List.cons_append, List.head?_cons] at hhd ⊢
        exact hhd

theorem toLowerHex_head_ne_zero {n : Nat} (h : 0 < n) :
    (toLowerHex n).head? ≠ some '0' :=
  toLowerHexAux_head_ne_zero (n + 1) n h (lt_sixteen_pow_succ n)

-- ## Properties of the escaper

/-- A character the escaper passes through unchanged. -/
def passChar (c : Char) : Bool := c.isAlphanum || c = '/' || c = '_'

theorem escChar_of_pass {c : Char} (h : passChar c = true) : escChar c = [c] := by
  unfold escChar
  unfold passChar at h
  rw [if_pos h]

theorem escChar_mem_pass {c d : Char} (hd : d ∈ escChar c) : passChar d = true := by
  unfold escChar at hd
  by_cases h : (c.isAlphanum || c = '/' || c = '_') = true
  · rw [if_pos h] at hd
    simp at hd
    subst hd
    exact h
  · rw [if_neg h] at hd
    simp at hd
    rcases hd with hd | hd
    · subst hd; decide
    · have := toLowerHex_isAlphanum hd
      unfold passChar
      simp [this]

theorem encodeChars_append (l₁ l₂ : List Char) :
    encodeChars (l₁ ++ l₂) = encodeChars l₁ ++ encodeChars l₂ := by
  induction l₁ with
  | nil => simp [encodeChars]
  | cons c cs ih => simp [encodeChars, ih]

theorem encodeChars_of_pass :
    ∀ l : List Char, (∀ c ∈ l, passChar c = true) → encodeChars l = l := by
  intro l
  induction l with
  | nil => intro _; rfl
  | cons c cs ih =>
    intro h
    have hc := h c (by simp)
    have hcs := ih (fun d hd => h d (by simp [hd]))
    simp [encodeChars, escChar_of_pass hc, hcs]

theorem encodeChars_mem_pass :
    ∀ l : List Char, ∀ d ∈ encodeChars l, passChar d = true := by
  intro l
  induction l with
  | nil => intro d hd; simp [encodeChars] at hd
  | cons c cs ih =>
    intro d hd
    simp only [encodeChars, List.mem_append] at hd
    rcases hd with hd | hd
    · exact escChar_mem_pass hd
    · exact ih d hd

theorem encodeChars_idem (l : List Char) :
    encodeChars (encodeChars l) = encodeChars l :=
  encodeChars_of_pass _ (encodeChars_mem_pass l)

theorem encode_idem (s : String) :
    encode_as_dbus_object_path (encode_as_dbus_object_path s)
      = encode_as_dbus_object_path s := by
  unfold encode_as_dbus_object_path
  rw [encodeChars_idem]

theorem encodeChars_ne_nil {l : List Char} (h : l ≠ []) : encodeChars l ≠ [] := by
  cases l with
  | nil => exact absurd rfl h
  | cons c cs =>
    simp only [encodeChars]
    unfold escChar
    by_cases hp : (c.isAlphanum || c = '/' || c = '_') = true <;>
      simp [hp]

-- ## D-Bus object path validity

/-- A character allowed inside a D-Bus object-path element. -/
def isPathChar (c : Char) : Bool := c.isAlphanum || c = '_'

/-- Modelled from the spec: validity of the part of a D-Bus object path
after the leading `/`, as checked by the `zvariant` crate's
`ObjectPath::try_from` (external dependency, not under src/): a nonempty
sequence of nonempty elements of characters from `[A-Za-z0-9_]`,
separated by single `/`. The flag is `true` when positioned at the start
of an element (right after a `/`), where a further `/` or the end of the
string is forbidden. -/
def elemsOkFrom : Bool → List Char → Bool
  | needElem, [] => !needElem
  | needElem, c :: rest =>
    if c = '/' then !needElem && elemsOkFrom true rest
    else isPathChar c && elemsOkFrom false rest

/-- Modelled from the spec: the `zvariant` crate's D-Bus object path
validation. A valid path is `/`, or `/` followed by `/`-separated
nonempty elements over `[A-Za-z0-9_]`. -/
def isValidObjectPath (s : String) : Bool :=
  match s.data with
  | [] => false
  | c :: rest => c = '/' && (rest.isEmpty || elemsOkFrom true rest)

theorem elemsOkFrom_false_of_all :
    ∀ l : List Char, (∀ c ∈ l, isPathChar c = true) → elemsOkFrom false l = true := by
  intro l
  induction l with
  | nil => intro _; rfl
  | cons c cs ih =>
    intro h
    have hc := h c (by simp)
    have hslash : ¬(c = '/') := by
      intro hcc
      subst hcc
      simp [isPathChar] at hc
    simp only [elemsOkFrom, if_neg hslash]
    simp [hc, ih (fun d hd => h d (by simp [hd]))]

theorem elemsOkFrom_true_of_all :
    ∀ l : List Char, l ≠ [] → (∀ c ∈ l, isPathChar c = true) →
      elemsOkFrom true l = true := by
  intro l hne h
  cases l with
  | nil => exact absurd rfl hne
  | cons c cs =>
    have hc := h c (by simp)
    have hslash : ¬(c = '/') := by
      intro hcc
      subst hcc
      simp [isPathChar] at hc
    simp only [elemsOkFrom, if_neg hslash]
    simp [hc, elemsOkFrom_false_of_all cs (fun d hd => h d (by simp [hd]))]

-- ## Control-plane client (src/utils/systemd.rs, src/main.rs)

/-- Modelled from the spec: `zvariant::ObjectPath::try_from`, which
accepts a string exactly when it is a valid D-Bus object path. The
`Err(_)` payload is irrelevant to the callers and is modelled as `Unit`. -/
def tryObjectPath (s : String) : Except Unit String :=
  if isValidObjectPath s then Except.ok s else Except.error ()

/-- `get_active_state` from src/utils/systemd.rs lines 93-106. The bus
round trip (`UnitProxy::new` + `active_state()`) is abstracted as `bus`,
mapping the validated object path to the property value or a transport
error; `unwrap_or` turns the latter into the sentinel. -/
def get_active_state (bus : String → Except Unit String)
    (full_service_name : String) : String :=
  match tryObjectPath (get_unit_path full_service_name) with
  | Except.ok path =>
    match bus path with
    | Except.ok state => state
    | Except.error _ => "invalid-unit-path"
  | Except.error _ => "invalid-unit-path"

/-- `get_unit_file_state` from src/utils/systemd.rs lines 117-130,
structured exactly like `get_active_state`. -/
def get_unit_file_state (bus : String → Except Unit String)
    (full_service_name : String) : String :=
  match tryObjectPath (get_unit_path full_service_name) with
  | Except.ok path =>
    match bus path with
    | Except.ok state => state
    | Except.error _ => "invalid-unit-path"
  | Except.error _ => "invalid-unit-path"

/-- `get_load_state` from src/main.rs lines 283-294, same shape again. -/
def get_load_state (bus : String → Except Unit String)
    (full_service_name : String) : String :=
  match tryObjectPath (get_unit_path full_service_name) with
  | Except.ok path =>
    match bus path with
    | Except.ok state => state
    | Except.error _ => "invalid-unit-path"
  | Except.error _ => "invalid-unit-path"

/-- `get_main_pid` from src/utils/systemd.rs lines 139-147. Unlike the
three state getters it returns a `Result` and propagates both the
`ObjectPath::try_from` failure (via `?`) and the bus error. -/
def get_main_pid (bus : String → Except Unit Nat)
    (full_service_name : String) : Except Unit Nat :=
  match tryObjectPath (get_unit_path full_service_name) with
  | Except.ok path => bus path
  | Except.error e => Except.error e

-- ## Name normalization (src/main.rs lines 59-63)

/-- `TOOL_NAME` from src/main.rs line 11. -/
def TOOL_NAME : String := "stabled"

/-- Rust `str::ends_with` for string patterns: suffix test. -/
def ends_with (s pat : String) : Bool := List.isSuffixOf pat.data s.data

/-- The unit-name normalization inline in `main`, src/main.rs lines
59-63: if the input already ends with `"stabled.service"` it is passed
through, otherwise `".stabled.service"` is appended. -/
def normalize_full_service_name (path_or_service : String) : String :=
  if ends_with path_or_service (TOOL_NAME ++ ".service") then path_or_service
  else path_or_service ++ "." ++ TOOL_NAME ++ ".service"

-- ## Interpreter resolution (src/handlers/handle_create_service.rs)

/-- `get_interpreter` from src/handlers/handle_create_service.rs lines
117-134. The `panic!` for an unmapped extension is modelled as
`Except.error` carrying the panic message. -/
def get_interpreter (extension : Option String) : Except String (Option String) :=
  match extension with
  | some extension_str =>
    match extension_str with
    | "js" => Except.ok (some "node")
    | "py" => Except.ok (some "python3")
    | _ => Except.error ("No interpeter found for extension " ++ extension_str
        ++ ". Please provide a custom interpeter and try again.")
  | none => Except.ok none

/-- The interpreter selection in `handle_create_service`, lines 61-64:
an explicit `custom_interpreter` is used as-is, otherwise the extension
mapping decides. -/
def resolve_interpreter (custom_interpreter : Option String)
    (extension : Option String) : Except String (Option String) :=
  match custom_interpreter with
  | some _ => Except.ok custom_interpreter
  | none => get_interpreter extension

/-- Split a list of characters before the position of the last `'.'`:
returns the characters before it and after it, or `none` when there is no
dot. Helper for `path_extension`. -/
def splitLastDot : List Char → Option (List Char × List Char)
  | [] => none
  | c :: rest =>
    match splitLastDot rest with
    | some (before, after) => some (c :: before, after)
    | none => if c = '.' then some ([], rest) else none

/-- Rust `Path::extension` restricted to a bare file name (the only way
`handle_create_service` uses it): the part after the last `.`, and `none`
when there is no dot or the only dot leads the name. -/
def path_extension (file_name : String) : Option String :=
  match splitLastDot file_name.data with
  | some (before, after) => if before = [] then none else some (String.mk after)
  | none => none

-- ## Descriptor rendering (src/handlers/handle_create_service.rs)

/-- Rust `str::split_whitespace`: maximal runs of non-whitespace
characters, with no empty pieces. `acc` holds the current run reversed. -/
def splitWsAux : List Char → List Char → List String
  | [], acc => if acc = [] then [] else [String.mk acc.reverse]
  | c :: cs, acc =>
    if c.isWhitespace then
      if acc = [] then splitWsAux cs []
      else String.mk acc.reverse :: splitWsAux cs []
    else splitWsAux cs (c :: acc)

/-- Rust `str::split_whitespace` on a string. -/
def split_whitespace (s : String) : List String := splitWsAux s.data []

/-- The environment block of `create_service_file`, lines 186-203: split
the raw `env_vars` string on whitespace, prefix each pair with
`Environment=`, join with newlines; absent input renders as `""`. -/
def format_env_vars : Option String → String
  | some vars =>
    let pairs := split_whitespace vars
    let formatted_pairs := pairs.map (fun pair => "Environment=" ++ pair)
    String.intercalate "\n" formatted_pairs
  | none => ""

/-- The `formatdoc!` template of `create_service_file`, lines 208-227,
with the indentation already stripped as `indoc` does. -/
def service_body (service_name user working_directory exec_start
    restart_policy env_vars_formatted : String) : String :=
  "# Generated with Servicer\n[Unit]\nDescription=Servicer:" ++ service_name
    ++ "\nAfter=network.target\n\n[Service]\nType=simple\nUser=" ++ user
    ++ "\n\nWorkingDirectory=" ++ working_directory
    ++ "\nExecStart=" ++ exec_start ++ "\n" ++ restart_policy
    ++ "\n" ++ env_vars_formatted
    ++ "\n\n[Install]\nWantedBy=multi-user.target\n"

/-- `create_service_file` from src/handlers/handle_create_service.rs
lines 150-231, as a pure function. The `SUDO_USER` environment variable
is the `user` parameter; the PATH search `which::which` is the `which`
parameter; the `expect` on a failed lookup is `Except.error`; writing the
file is I/O and out of scope, so the rendered text is returned. -/
def create_service_file (service_name : String)
    (working_directory : String) (auto_restart : Bool)
    (interpreter : Option String) (env_vars : Option String)
    (internal_args : List String) (file_name : String) (user : String)
    (which : String → Option String) : Except String String :=
  let exec_start_base : Except String String :=
    match interpreter with
    | some interp =>
      match which interp with
      | some interpreter_path => Except.ok (interpreter_path ++ " " ++ file_name)
      | none => Except.error ("Could not find executable for " ++ interp)
    | none => Except.ok file_name
  match exec_start_base with
  | Except.error e => Except.error e
  | Except.ok base =>
    let exec_start := internal_args.foldl (fun acc arg => acc ++ " " ++ arg) base
    let env_vars_formatted := format_env_vars env_vars
    let restart_policy := if auto_restart then "Restart=always" else ""
    Except.ok (service_body service_name user working_directory exec_start
      restart_policy env_vars_formatted)

/-- The service-creation flow of `handle_create_service`, lines 39-90,
from the file name onward: pick the service display name, resolve the
interpreter from the extension unless overridden, then render the
descriptor. Filesystem existence checks and the subsequent start/enable
calls are I/O and out of scope. -/
def create_pipeline (file_name : String) (custom_name : Option String)
    (custom_interpreter : Option String) (env_vars : Option String)
    (auto_restart : Bool) (internal_args : List String)
    (working_directory user : String) (which : String → Option String) :
    Except String String :=
  let service_name := custom_name.getD file_name
  match resolve_interpreter custom_interpreter (path_extension file_name) with
  | Except.error e => Except.error e
  | Except.ok interpreter =>
    create_service_file service_name working_directory auto_restart
      interpreter env_vars internal_args file_name user which

/-- Space-separated join, used to state what the exec line looks like. -/
def spaceJoin : List String → String
  | [] => ""
  | [x] => x
  | x :: y :: rest => x ++ " " ++ spaceJoin (y :: rest)

-- ## Memory sampling (src/utils/process_status.rs lines 36-49)

/-- Decimal parse helper: fold the digits left to right, failing on any
non-digit. -/
def parseNatAux : List Char → Nat → Option Nat
  | [], acc => some acc
  | c :: cs, acc =>
    if c.isDigit then parseNatAux cs (10 * acc + (c.toNat - 48)) else none

/-- Rust `str::parse::<u64>()`: digits only, nonempty. (The `+` sign
prefix Rust tolerates and the failure on values of 2^64 and above are
immaterial to `/proc` contents and not modelled.) -/
def parseNat? (s : String) : Option Nat :=
  if s.data = [] then none else parseNatAux s.data 0

/-- The pure part of `get_memory_usage`: everything after
`read_to_string` succeeded, applied to the file's contents. The two
`panic!` sites (the format guard, and the out-of-bounds `values[2]` the
guard fails to prevent) and the u64 underflow of
`rss_pages - shared_pages` (a panic in a debug build) are modelled as
`Except.error` with distinguishing messages. -/
def get_memory_usage (contents : String) (page_size_kb : Nat) :
    Except String Nat :=
  let values := split_whitespace contents
  if values.length < 2 then
    Except.error "Invalid format of /proc/PID/statm file"
  else
    match values.get? 1, values.get? 2 with
    | some v1, some v2 =>
      let rss_pages := (parseNat? v1).getD 0
      let shared_pages := (parseNat? v2).getD 0
      if shared_pages ≤ rss_pages then
        Except.ok ((rss_pages - shared_pages) * page_size_kb)
      else
        Except.error "attempt to subtract with overflow"
    | _, _ => Except.error "index out of bounds"

-- ## Helper lemmas toward the claims

theorem escChar_mem_isPathChar {c d : Char} (hc : ¬(c = '/')) (hd : d ∈ escChar c) :
    isPathChar d = true := by
  unfold escChar at hd
  by_cases h : (c.isAlphanum || c = '/' || c = '_') = true
  · rw [if_pos h] at hd
    simp at hd
    subst hd
    unfold isPathChar
    have h2 : (d.isAlphanum = true ∨ d = '/') ∨ d = '_' := by simpa using h
    rcases h2 with (h1 | h1) | h1
    · simp [h1]
    · exact absurd h1 hc
    · simp [h1]
  · rw [if_neg h] at hd
    simp at hd
    rcases hd with hd | hd
    · subst hd; decide
    · unfold isPathChar
      simp [toLowerHex_isAlphanum hd]

theorem encodeChars_mem_isPathChar :
    ∀ l : List Char, (∀ c ∈ l, ¬(c = '/')) →
      ∀ d ∈ encodeChars l, isPathChar d = true := by
  intro l
  induction l with
  | nil => intro _ d hd; simp [encodeChars] at hd
  | cons c cs ih =>
    intro h d hd
    simp only [encodeChars, List.mem_append] at hd
    rcases hd with hd | hd
    · exact escChar_mem_isPathChar (h c (by simp)) hd
    · exact ih (fun e he => h e (by simp [he])) d hd

theorem unit_path_prefix_data :
    ("/org/freedesktop/systemd1/unit/" : String).data
      = '/' :: ("org/freedesktop/systemd1/unit/" : String).data := by decide

theorem get_unit_path_data (name : String) :
    (get_unit_path name).data
      = '/' :: (("org/freedesktop/systemd1/unit/" : String).data
          ++ encodeChars name.data) := by
  unfold get_unit_path encode_as_dbus_object_path
  rw [String.data_append, unit_path_prefix_data]
  rfl

theorem data_ne_nil_of_ne_empty {s : String} (h : s ≠ "") : s.data ≠ [] := by
  intro hd
  exact h (String.ext hd)

/-- For a nonempty, slash-free unit name, `get_unit_path` produces a valid
D-Bus object path. -/
theorem unit_path_valid (name : String) (hne : name ≠ "")
    (hns : ∀ c ∈ name.data, ¬(c = '/')) :
    isValidObjectPath (get_unit_path name) = true := by
  unfold isValidObjectPath
  rw [get_unit_path_data]
  have henc : elemsOkFrom true (encodeChars name.data) = true :=
    elemsOkFrom_true_of_all _ (encodeChars_ne_nil (data_ne_nil_of_ne_empty hne))
      (encodeChars_mem_isPathChar name.data hns)
  simp only [List.cons.injEq]
  simp +decide [elemsOkFrom, isPathChar, henc]

theorem ends_with_iff {s pat : String} :
    ends_with s pat = true ↔ pat.data <:+ s.data := by
  unfold ends_with
  exact List.isSuffixOf_iff_suffix

theorem normalize_eq (x : String) :
    normalize_full_service_name x
      = if ends_with x (TOOL_NAME ++ ".service") then x
        else x ++ "." ++ TOOL_NAME ++ ".service" := rfl

theorem appended_suffix_ends_with (x : String) :
    ends_with (x ++ "." ++ TOOL_NAME ++ ".service") (TOOL_NAME ++ ".service")
      = true := by
  rw [ends_with_iff]
  simp only [String.data_append]
  rw [show x.data ++ ("." : String).data ++ TOOL_NAME.data
        ++ (".service" : String).data
      = (x.data ++ ("." : String).data)
        ++ (TOOL_NAME.data ++ (".service" : String).data) by
    simp [List.append_assoc]]
  exact List.suffix_append _ _

theorem normalize_ends_with (x : String) :
    ends_with (normalize_full_service_name x) (TOOL_NAME ++ ".service") = true := by
  rw [normalize_eq]
  by_cases h : ends_with x (TOOL_NAME ++ ".service") = true
  · rw [if_pos h]
    exact h
  · rw [if_neg h]
    exact appended_suffix_ends_with x

theorem service_body_split (sn u wd es rp ev : String) :
    service_body sn u wd es rp ev
      = ("# Generated with Servicer\n[Unit]\nDescription=Servicer:" ++ sn
          ++ "\nAfter=network.target\n\n[Service]\nType=simple\nUser=" ++ u
          ++ "\n\nWorkingDirectory=" ++ wd ++ "\nExecStart=" ++ es ++ "\n")
        ++ rp
        ++ ("\n" ++ ev ++ "\n\n[Install]\nWantedBy=multi-user.target\n") := by
  simp [service_body, String.append_assoc]

theorem spaceJoin_cons_cons (b a : String) (as : List String) :
    spaceJoin ((b ++ " " ++ a) :: as) = b ++ " " ++ spaceJoin (a :: as) := by
  cases as with
  | nil => rfl
  | cons c cs => simp [spaceJoin, String.append_assoc]

theorem foldl_space_eq_spaceJoin (args : List String) :
    ∀ base : String,
      args.foldl (fun acc arg => acc ++ " " ++ arg) base = spaceJoin (base :: args) := by
  induction args with
  | nil => intro base; rfl
  | cons a as ih =>
    intro base
    simp only [List.foldl_cons]
    rw [ih (base ++ " " ++ a), spaceJoin_cons_cons]
    rfl

-- ## Claim theorems

/-- C1: the object-path escaper maps each character independently (it is
a homomorphism for string concatenation); ASCII alphanumerics, `/` and
`_` pass through unchanged; every other character becomes `_` followed by
its code point rendered in genuine lowercase hexadecimal with no
separator and no padding (the rendering decodes back to the code point
and has no leading zero); escaping `"hello world.txt"` yields
`"hello_20world_2etxt"`; and the full object path is the escaped segment
appended to the fixed prefix `"/org/freedesktop/systemd1/unit/"`. -/
theorem C1_escaper_per_char_and_path :
    (∀ s t : String, encode_as_dbus_object_path (s ++ t)
        = encode_as_dbus_object_path s ++ encode_as_dbus_object_path t)
    ∧ (∀ c : Char, (c.isAlphanum || c = '/' || c = '_') = true →
        encode_as_dbus_object_path (String.mk [c]) = String.mk [c])
    ∧ (∀ c : Char, (c.isAlphanum || c = '/' || c = '_') = false →
        encode_as_dbus_object_path (String.mk [c])
            = String.mk ('_' :: toLowerHex c.toNat)
          ∧ hexValChars (toLowerHex c.toNat) = some c.toNat
          ∧ (0 < c.toNat → (toLowerHex c.toNat).head? ≠ some '0'))
    ∧ encode_as_dbus_object_path " " = "_20"
    ∧ encode_as_dbus_object_path "." = "_2e"
    ∧ encode_as_dbus_object_path "hello world.txt" = "hello_20world_2etxt"
    ∧ (∀ s : String, get_unit_path s
        = "/org/freedesktop/systemd1/unit/" ++ encode_as_dbus_object_path s) := by
  refine ⟨?_, ?_, ?_, by decide, by decide, by decide, fun _ => rfl⟩
  · intro s t
    apply String.ext
    show encodeChars (s ++ t).data = _
    rw [String.data_append, encodeChars_append, String.data_append]
    rfl
  · intro c h
    apply String.ext
    show encodeChars [c] = [c]
    simp [encodeChars]
    exact escChar_of_pass h
  · intro c h
    have hneg : ¬((c.isAlphanum || c = '/' || c = '_') = true) := by
      simp [h]
    refine ⟨?_, hexValChars_toLowerHex c.toNat, fun hp => toLowerHex_head_ne_zero hp⟩
    apply String.ext
    show encodeChars [c] = '_' :: toLowerHex c.toNat
    simp [encodeChars]
    unfold escChar
    rw [if_neg hneg]

/-- C1 witness: the conjuncts with hypotheses applied at concrete inputs
(`'a'` passes through; `'.'` is replaced by `_` plus its lowercase hex). -/
theorem C1_escaper_witness :
    encode_as_dbus_object_path (String.mk ['a']) = String.mk ['a']
    ∧ encode_as_dbus_object_path (String.mk ['.'])
        = String.mk ('_' :: toLowerHex '.'.toNat) :=
  ⟨C1_escaper_per_char_and_path.2.1 'a' (by decide),
   (C1_escaper_per_char_and_path.2.2.1 '.' (by decide)).1⟩

/-- C5: the escaper is the identity on strings made only of ASCII
alphanumerics, `/` and `_`. -/
theorem C5_escape_identity_on_clean (s : String)
    (h : ∀ c ∈ s.data, (c.isAlphanum || c = '/' || c = '_') = true) :
    encode_as_dbus_object_path s = s := by
  unfold encode_as_dbus_object_path
  rw [encodeChars_of_pass s.data h]

/-- C5 witness at the concrete clean string `"abc_def/g09"`. -/
theorem C5_escape_identity_witness :
    encode_as_dbus_object_path "abc_def/g09" = "abc_def/g09" :=
  C5_escape_identity_on_clean "abc_def/g09" (by decide)

/-- C4 counterexample: the claim asserts some string escapes differently
when escaped twice; in fact no string does, because the escaper only ever
emits pass-through characters (alphanumerics, `_`, `/`). -/
theorem C4_counterexample_no_double_escape :
    ¬ ∃ s : String, encode_as_dbus_object_path (encode_as_dbus_object_path s)
      ≠ encode_as_dbus_object_path s := by
  intro ⟨s, hs⟩
  exact hs (encode_idem s)

/-- C4 amended: the escaper is idempotent — re-escaping an
already-escaped string returns it unchanged, since every character the
escaper emits (ASCII alphanumerics, `_`, and pass-through `/`) is itself
a pass-through character. -/
theorem C4_escape_idempotent (s : String) :
    encode_as_dbus_object_path (encode_as_dbus_object_path s)
      = encode_as_dbus_object_path s :=
  encode_idem s

/-- C9: for every nonempty unit name without `/`, the escaped object path
is made only of path-element characters after the fixed prefix and is a
valid D-Bus object path, so the `Err` branch of `ObjectPath::try_from`
(the `"invalid-unit-path"` sentinel) is unreachable and the bus reply is
returned as-is; the empty name yields an invalid path, and some name
containing `/` also yields an invalid path. -/
theorem C9_escaped_path_validity :
    (∀ name : String, name ≠ "" → (∀ c ∈ name.data, ¬(c = '/')) →
        isValidObjectPath (get_unit_path name) = true)
    ∧ (∀ name : String, (∀ c ∈ name.data, ¬(c = '/')) →
        ∀ d ∈ (encode_as_dbus_object_path name).data, isPathChar d = true)
    ∧ isValidObjectPath (get_unit_path "") = false
    ∧ (∃ name : String, '/' ∈ name.data
        ∧ isValidObjectPath (get_unit_path name) = false)
    ∧ (∀ (name : String) (bus : String → Except Unit String) (v : String),
        name ≠ "" → (∀ c ∈ name.data, ¬(c = '/')) →
        bus (get_unit_path name) = Except.ok v →
        get_active_state bus name = v) := by
  refine ⟨unit_path_valid, ?_, by decide, ⟨"/", by decide, by decide⟩, ?_⟩
  · intro name h d hd
    exact encodeChars_mem_isPathChar name.data h d hd
  · intro name bus v hne hns hbus
    unfold get_active_state tryObjectPath
    rw [unit_path_valid name hne hns]
    simp [hbus]

/-- C9 witness: at the concrete name `"a.service"` the path is valid and
a successful bus reply is passed through unchanged. -/
theorem C9_escaped_path_witness :
    isValidObjectPath (get_unit_path "a.service") = true
    ∧ get_active_state (fun _ => Except.ok "active") "a.service" = "active" :=
  ⟨C9_escaped_path_validity.1 "a.service" (by decide) (by decide),
   C9_escaped_path_validity.2.2.2.2 "a.service" (fun _ => Except.ok "active")
     "active" (by decide) (by decide) rfl⟩

/-- C2 counterexample: on an address-resolution failure (here the empty
unit name, whose object path is invalid) `get_main_pid` does not return
the `"invalid-unit-path"` sentinel — it propagates the resolution error
through its `Result` even though the bus itself never fails. -/
theorem C2_counterexample_main_pid_propagates :
    isValidObjectPath (get_unit_path "") = false
    ∧ get_main_pid (fun _ => Except.ok 7) "" = Except.error () := by
  exact ⟨by decide, rfl⟩

/-- C2 amended: on an address-resolution failure the three string-state
queries (`get_load_state`, `get_active_state`, `get_unit_file_state`)
return the local sentinel `"invalid-unit-path"`, and they also do so when
the property read itself fails, so a never-created unit reports the
sentinel rather than an error; `get_main_pid`, however, propagates the
failure as a `Result` instead of returning a sentinel. -/
theorem C2_sentinel_and_main_pid :
    (∀ name : String, isValidObjectPath (get_unit_path name) = false →
      ∀ (bus : String → Except Unit String) (busPid : String → Except Unit Nat),
        get_load_state bus name = "invalid-unit-path"
        ∧ get_active_state bus name = "invalid-unit-path"
        ∧ get_unit_file_state bus name = "invalid-unit-path"
        ∧ get_main_pid busPid name = Except.error ())
    ∧ (∀ (name : String) (bus : String → Except Unit String)
        (busPid : String → Except Unit Nat),
        (∀ p, bus p = Except.error ()) → (∀ p, busPid p = Except.error ()) →
        get_load_state bus name = "invalid-unit-path"
        ∧ get_active_state bus name = "invalid-unit-path"
        ∧ get_unit_file_state bus name = "invalid-unit-path"
        ∧ get_main_pid busPid name = Except.error ()) := by
  constructor
  · intro name hinvalid bus busPid
    unfold get_load_state get_active_state get_unit_file_state get_main_pid
      tryObjectPath
    rw [hinvalid]
    simp
  · intro name bus busPid hbus hbusPid
    unfold get_load_state get_active_state get_unit_file_state get_main_pid
      tryObjectPath
    by_cases hv : isValidObjectPath (get_unit_path name) = true
    · rw [hv]
      simp [hbus, hbusPid]
    · rw [Bool.not_eq_true] at hv
      rw [hv]
      simp

/-- C2 witness: both parts applied at concrete inputs — the empty name
(invalid path) and an always-failing bus. -/
theorem C2_sentinel_witness :
    get_active_state (fun _ => Except.error ()) "" = "invalid-unit-path"
    ∧ get_load_state (fun _ => Except.error ()) "x.service" = "invalid-unit-path" :=
  ⟨(C2_sentinel_and_main_pid.1 "" (by decide) (fun _ => Except.error ())
      (fun _ => Except.error ())).2.1,
   (C2_sentinel_and_main_pid.2 "x.service" (fun _ => Except.error ())
      (fun _ => Except.error ()) (fun _ => rfl) (fun _ => rfl)).1⟩

/-- C7: an input already carrying the full suffix `".stabled.service"` is
passed through unchanged by the normalization in `main`, and the
normalization is idempotent on every input. -/
theorem C7_normalize_idempotent :
    (∀ x : String,
        ends_with x (("." : String) ++ TOOL_NAME ++ ".service") = true →
        normalize_full_service_name x = x)
    ∧ (∀ x : String, normalize_full_service_name (normalize_full_service_name x)
        = normalize_full_service_name x) := by
  constructor
  · intro x h
    rw [normalize_eq]
    have h2 : ends_with x (TOOL_NAME ++ ".service") = true := by
      rw [ends_with_iff] at h ⊢
      exact List.IsSuffix.trans (by decide) h
    rw [if_pos h2]
  · intro x
    rw [normalize_eq (normalize_full_service_name x),
      if_pos (normalize_ends_with x)]

/-- C7 witness: pass-through at the already-qualified
`"a.stabled.service"`, and idempotence checked there too. -/
theorem C7_normalize_witness :
    normalize_full_service_name "a.stabled.service" = "a.stabled.service"
    ∧ normalize_full_service_name (normalize_full_service_name "app")
        = normalize_full_service_name "app" :=
  ⟨C7_normalize_idempotent.1 "a.stabled.service" (by decide),
   C7_normalize_idempotent.2 "app"⟩

/-- C3: an explicit interpreter is used as given; otherwise the
interpreter comes from the closed extension mapping `js → node`,
`py → python3`; with any other extension and no explicit interpreter,
resolution errors (the source `panic!`) and the creation pipeline
produces no descriptor; for a file named `index.js` the interpreter
resolves to `node`. -/
theorem C3_interpreter_resolution :
    (∀ (i : String) (ext : Option String),
        resolve_interpreter (some i) ext = Except.ok (some i))
    ∧ resolve_interpreter none (some "js") = Except.ok (some "node")
    ∧ resolve_interpreter none (some "py") = Except.ok (some "python3")
    ∧ (∀ ext : String, ¬(ext = "js") → ¬(ext = "py") →
        resolve_interpreter none (some ext)
          = Except.error ("No interpeter found for extension " ++ ext
              ++ ". Please provide a custom interpeter and try again."))
    ∧ (∀ (fn ext : String) (cn ev : Option String) (ar : Bool)
        (args : List String) (wd u : String) (w : String → Option String),
        path_extension fn = some ext → ¬(ext = "js") → ¬(ext = "py") →
        create_pipeline fn cn none ev ar args wd u w
          = Except.error ("No interpeter found for extension " ++ ext
              ++ ". Please provide a custom interpeter and try again."))
    ∧ resolve_interpreter none (path_extension "index.js")
        = Except.ok (some "node") := by
  have herr : ∀ ext : String, ¬(ext = "js") → ¬(ext = "py") →
      resolve_interpreter none (some ext)
        = Except.error ("No interpeter found for extension " ++ ext
            ++ ". Please provide a custom interpeter and try again.") := by
    intro ext h1 h2
    unfold resolve_interpreter get_interpreter
    split <;> simp_all
  refine ⟨fun i ext => rfl, rfl, rfl, herr, ?_, rfl⟩
  intro fn ext cn ev ar args wd u w hext h1 h2
  unfold create_pipeline
  rw [hext, herr ext h1 h2]

/-- C3 witness: resolution and the pipeline rejected at the unmapped
extension `"txt"` (file `"notes.txt"`), explicit interpreter honored. -/
theorem C3_interpreter_witness :
    resolve_interpreter (some "deno") (some "txt") = Except.ok (some "deno")
    ∧ resolve_interpreter none (some "txt")
        = Except.error ("No interpeter found for extension txt"
            ++ ". Please provide a custom interpeter and try again.")
    ∧ create_pipeline "notes.txt" none none none false [] "/srv" "bob"
        (fun _ => none)
        = Except.error ("No interpeter found for extension txt"
            ++ ". Please provide a custom interpeter and try again.") :=
  ⟨C3_interpreter_resolution.1 "deno" (some "txt"),
   C3_interpreter_resolution.2.2.2.1 "txt" (by decide) (by decide),
   C3_interpreter_resolution.2.2.2.2.1 "notes.txt" "txt" none none false []
     "/srv" "bob" (fun _ => none) rfl (by decide) (by decide)⟩

set_option maxRecDepth 8192 in
/-- C6: with a resolvable interpreter (or none), rendering with
`restart_policy = Always` and with `restart_policy = Never` both succeed
and produce the same text up to exactly the `Restart=always` directive,
which appears only in the `Always` rendering; and at a concrete benign
input the `Never` rendering contains no occurrence of `"Restart"` at all. -/
theorem C6_restart_directive :
    (∀ (sn wd : String) (interp ev : Option String) (args : List String)
        (fn u : String) (w : String → Option String),
        (∀ i, interp = some i → (w i).isSome = true) →
        ∃ pre post : String,
          create_service_file sn wd true interp ev args fn u w
            = Except.ok (pre ++ "Restart=always" ++ post)
          ∧ create_service_file sn wd false interp ev args fn u w
            = Except.ok (pre ++ post))
    ∧ ¬(("Restart" : String).data
        <:+: (service_body "app" "bob" "/srv" "run.sh" "" "").data) := by
  constructor
  · intro sn wd interp ev args fn u w hw
    have hbase : ∃ base : String,
        (match interp with
          | some interp' =>
            match w interp' with
            | some interpreter_path =>
              Except.ok (interpreter_path ++ " " ++ fn)
            | none =>
              Except.error ("Could not find executable for " ++ interp')
          | none => (Except.ok fn : Except String String)) = Except.ok base := by
      cases interp with
      | none => exact ⟨fn, rfl⟩
      | some i =>
        have := hw i rfl
        cases hwi : w i with
        | none => rw [hwi] at this; simp at this
        | some p => exact ⟨p ++ " " ++ fn, by simp [hwi]⟩
    obtain ⟨base, hbase⟩ := hbase
    refine ⟨"# Generated with Servicer\n[Unit]\nDescription=Servicer:" ++ sn
        ++ "\nAfter=network.target\n\n[Service]\nType=simple\nUser=" ++ u
        ++ "\n\nWorkingDirectory=" ++ wd ++ "\nExecStart="
        ++ args.foldl (fun acc arg => acc ++ " " ++ arg) base ++ "\n",
      "\n" ++ format_env_vars ev
        ++ "\n\n[Install]\nWantedBy=multi-user.target\n", ?_, ?_⟩
    · unfold create_service_file
      rw [hbase]
      show Except.ok (service_body sn u wd
          (args.foldl (fun acc arg => acc ++ " " ++ arg) base)
          "Restart=always" (format_env_vars ev)) = _
      rw [service_body_split]
    · unfold create_service_file
      rw [hbase]
      show Except.ok (service_body sn u wd
          (args.foldl (fun acc arg => acc ++ " " ++ arg) base)
          "" (format_env_vars ev)) = _
      rw [service_body_split, String.append_empty]
  · decide

/-- C6 witness: the split applied with no interpreter at concrete inputs. -/
theorem C6_restart_witness :
    ∃ pre post : String,
      create_service_file "app" "/srv" true none none [] "run.sh" "bob"
          (fun _ => none)
        = Except.ok (pre ++ "Restart=always" ++ post)
      ∧ create_service_file "app" "/srv" false none none [] "run.sh" "bob"
          (fun _ => none)
        = Except.ok (pre ++ post) :=
  C6_restart_directive.1 "app" "/srv" none none [] "run.sh" "bob"
    (fun _ => none) (fun i h => by cases h)

/-- C10: for a file name with no extension and no explicit interpreter,
interpreter resolution yields no interpreter and no error, the rendered
descriptor does not depend on the interpreter-path lookup at all, and the
exec line is exactly the file name followed by the positional arguments
in order. -/
theorem C10_no_extension_pipeline (fn : String)
    (hext : path_extension fn = none) :
    ∀ (cn ev : Option String) (args : List String) (wd u : String)
      (w w2 : String → Option String),
      resolve_interpreter none (path_extension fn) = Except.ok none
      ∧ create_pipeline fn cn none ev false args wd u w
          = create_pipeline fn cn none ev false args wd u w2
      ∧ create_pipeline fn cn none ev false args wd u w
          = Except.ok (service_body (cn.getD fn) u wd (spaceJoin (fn :: args))
              "" (format_env_vars ev)) := by
  intro cn ev args wd u w w2
  have hpipe : ∀ w' : String → Option String,
      create_pipeline fn cn none ev false args wd u w'
        = Except.ok (service_body (cn.getD fn) u wd (spaceJoin (fn :: args))
            "" (format_env_vars ev)) := by
    intro w'
    unfold create_pipeline
    rw [hext]
    show Except.ok (service_body (cn.getD fn) u wd
        (args.foldl (fun acc arg => acc ++ " " ++ arg) fn) ""
        (format_env_vars ev)) = _
    rw [foldl_space_eq_spaceJoin]
  exact ⟨by rw [hext]; rfl, by rw [hpipe w, hpipe w2], hpipe w⟩

/-- C10 witness: at the extensionless file `"run"` with two arguments and
two different lookup functions. -/
theorem C10_no_extension_witness :
    create_pipeline "run" none none none false ["a", "b"] "/srv" "bob"
        (fun _ => some "/bin/x")
      = create_pipeline "run" none none none false ["a", "b"] "/srv" "bob"
        (fun _ => none)
    ∧ create_pipeline "run" none none none false ["a", "b"] "/srv" "bob"
        (fun _ => none)
      = Except.ok (service_body "run" "bob" "/srv" (spaceJoin ["run", "a", "b"])
          "" (format_env_vars none)) :=
  ⟨(C10_no_extension_pipeline "run" (by decide) none none ["a", "b"] "/srv"
      "bob" (fun _ => some "/bin/x") (fun _ => none)).2.1,
   (C10_no_extension_pipeline "run" (by decide) none none ["a", "b"] "/srv"
      "bob" (fun _ => none) (fun _ => none)).2.2⟩

/-- C8: the format guard of `get_memory_usage` only rejects fewer than
two whitespace-separated fields, yet the computation reads field index 2,
so on any contents with exactly two fields the function panics
(out-of-bounds indexing); and with three or more fields, whenever the
parsed shared-pages field exceeds the parsed resident-pages field the
unsigned subtraction underflows. -/
theorem C8_statm_guard_off_by_one :
    (∀ (contents : String) (ps : Nat),
        (split_whitespace contents).length = 2 →
        get_memory_usage contents ps = Except.error "index out of bounds")
    ∧ (∀ (contents : String) (ps : Nat) (v0 v1 v2 : String)
        (rest : List String),
        split_whitespace contents = v0 :: v1 :: v2 :: rest →
        (parseNat? v1).getD 0 < (parseNat? v2).getD 0 →
        get_memory_usage contents ps
          = Except.error "attempt to subtract with overflow") := by
  constructor
  · intro contents ps hlen
    obtain ⟨a, b, hab⟩ := List.length_eq_two.mp hlen
    unfold get_memory_usage
    rw [hab]
    simp
  · intro contents ps v0 v1 v2 rest hsplit hlt
    unfold get_memory_usage
    rw [hsplit]
    simp [Nat.not_le.mpr hlt]

/-- C8 witness: contents `"1 2"` (two fields) hit the out-of-bounds
panic; contents `"9 5 7"` (shared 7 > resident 5) hit the underflow. -/
theorem C8_statm_witness :
    get_memory_usage "1 2" 4 = Except.error "index out of bounds"
    ∧ get_memory_usage "9 5 7" 4
        = Except.error "attempt to subtract with overflow" :=
  ⟨C8_statm_guard_off_by_one.1 "1 2" 4 (by decide),
   C8_statm_guard_off_by_one.2 "9 5 7" 4 "9" "5" "7" [] (by decide) (by decide)⟩
